import Mathlib

/-
Verification of the ACO (ant colony optimization) simulation engine.

The TypeScript source is shallowly embedded:
* JS numbers are modelled as rationals (ℚ).
* JS platform math functions (Math.sqrt, Math.cos, Math.sin, Math.atan2,
  Math.PI, Math.random) are modelled as fields of a `MathOps` parameter
  threaded through every function that calls them; successive
  `Math.random()` call sites draw `rand 0`, `rand 1`, ... so distinct call
  sites see independent draws.
* A JS `Map` is modelled as an association list in insertion order
  (`assocSet` is `Map.set` — replace in place or append; `assocGet` is
  `Map.get`; `List.length` is `Map.size`).  The string key
  `"a,b"` built by `createPheromoneKey` is modelled as the pair `(a, b)`,
  an injective rendering.
-/

namespace ACO

/-- A 2D plane position (`types.ts` `Position`). -/
structure Position where
  x : ℚ
  y : ℚ
deriving DecidableEq, Repr

/-- Pheromone type tags from `types.ts` (`'toFood' | 'toNest'`). -/
inductive PherType where
  | toFood
  | toNest
deriving DecidableEq, Repr

/-- A pheromone map entry (`types.ts` `PheromoneSchema`). -/
structure Pheromone where
  position : Position
  intensity : ℚ
  type : PherType
deriving DecidableEq, Repr

/-- A food item (`types.ts` `FoodSchema`). -/
structure Food where
  id : String
  position : Position
  amount : ℚ
deriving DecidableEq, Repr

/-- An ant (`types.ts` `AntSchema` plus the `foodAmount` field used by
`ant-behavior.ts` and the store). -/
structure Ant where
  id : String
  position : Position
  direction : ℚ
  hasFood : Bool
  targetFood : Option String
  foodAmount : Option ℚ
deriving DecidableEq, Repr

/-- The JS platform math functions used by the engine, as parameters. -/
structure MathOps where
  sqrt : ℚ → ℚ
  cos : ℚ → ℚ
  sin : ℚ → ℚ
  atan2 : ℚ → ℚ → ℚ
  pi : ℚ
  rand : ℕ → ℚ

/-- Truncation toward zero, the rounding used by the JS `%` operator. -/
def jsTrunc (q : ℚ) : ℤ := if 0 ≤ q then ⌊q⌋ else ⌈q⌉

/-- The JS `%` operator on numbers (remainder with the dividend's sign). -/
def jsMod (a b : ℚ) : ℚ := a - b * (jsTrunc (a / b) : ℚ)

/-- JS `Map.get`, on the association-list model of a `Map`. -/
def assocGet {κ α : Type} [DecidableEq κ] : List (κ × α) → κ → Option α
  | [], _ => none
  | (k', v) :: t, k => if k' = k then some v else assocGet t k

/-- JS `Map.set`, on the association-list model of a `Map`: replace the
entry in place when the key is present, append otherwise. -/
def assocSet {κ α : Type} [DecidableEq κ] : List (κ × α) → κ → α → List (κ × α)
  | [], k, v => [(k, v)]
  | (k', v') :: t, k, v => if k' = k then (k, v) :: t else (k', v') :: assocSet t k v

/-- A pheromone grid-cell key: the JS string key `"a,b"` as the pair. -/
abbrev PherKey := ℤ × ℤ

/-- The pheromone field: a JS `Map<string, Pheromone>` in insertion order. -/
abbrev PherMap := List (PherKey × Pheromone)

/-- `createPheromoneKey` from `pheromone.ts`: integer-divide both
coordinates by the cell size 10 (`Math.floor` is `Int.floor` on ℚ). -/
def createPheromoneKey (position : Position) : PherKey :=
  (⌊position.x / 10⌋, ⌊position.y / 10⌋)

/-- `depositPheromone` from `pheromone.ts`: intensify an existing cell
entry (capped at 100, keeping its stored fields) or insert a fresh entry at
the cell center. -/
def depositPheromone (pheromones : PherMap) (position : Position)
    (type : PherType) (amount : ℚ) : PherMap :=
  let key := createPheromoneKey position
  let newPheromone : Pheromone :=
    match assocGet pheromones key with
    | some existing =>
        { existing with intensity := min 100 (existing.intensity + amount) }
    | none =>
        { position := { x := (⌊position.x / 10⌋ : ℚ) * 10 + 5,
                        y := (⌊position.y / 10⌋ : ℚ) * 10 + 5 },
          intensity := amount,
          type := type }
  assocSet pheromones key newPheromone

/-- The `forEach` body of `decayPheromones` (exponential revision of
`pheromone.ts`): multiply the entry's intensity by the decay rate and
re-insert it into the map under construction only when the decayed
intensity stays above the 0.01 threshold. -/
def decayStep (decayRate : ℚ) (newMap : PherMap) (kp : PherKey × Pheromone) :
    PherMap :=
  let decayedIntensity := kp.2.intensity * decayRate
  if 1/100 < decayedIntensity then
    assocSet newMap kp.1 { kp.2 with intensity := decayedIntensity }
  else newMap

/-- `decayPheromones` from `pheromone.ts` (the exponential revision):
iterate over all entries, collecting the decayed survivors into a fresh
map in iteration order. -/
def decayPheromones (pheromones : PherMap) (decayRate : ℚ) : PherMap :=
  pheromones.foldl (decayStep decayRate) []

/-- Repeated application of `decayPheromones` at a fixed rate. -/
def decayIter (decayRate : ℚ) : ℕ → PherMap → PherMap
  | 0, f => f
  | n + 1, f => decayPheromones (decayIter decayRate n f) decayRate

/-- The `forEach` body of `getPheromoneStrength`: add
`intensity / (1 + distance)` for an entry of the matching type closer than
30, where the distance is the plain (non-toroidal) Euclidean distance. -/
def strengthStep (ops : MathOps) (position : Position) (type : PherType)
    (totalStrength : ℚ) (kp : PherKey × Pheromone) : ℚ :=
  if kp.2.type = type then
    let dx := position.x - kp.2.position.x
    let dy := position.y - kp.2.position.y
    let distance := ops.sqrt (dx * dx + dy * dy)
    if distance < 30 then totalStrength + kp.2.intensity / (1 + distance)
    else totalStrength
  else totalStrength

/-- `getPheromoneStrength` from `pheromone.ts`: accumulate the
distance-attenuated intensities over the whole field.  Note the source
measures the PLAIN Euclidean distance here (no toroidal wrap) and takes no
world dimensions. -/
def getPheromoneStrength (ops : MathOps) (pheromones : PherMap)
    (position : Position) (type : PherType) : ℚ :=
  pheromones.foldl (strengthStep ops position type) 0

/-- Exact rational square root when the argument is a square of a rational,
zero-junk otherwise; used to instantiate `MathOps.sqrt` on concrete inputs
whose distances are perfect squares. -/
def ratSqrt (q : ℚ) : ℚ :=
  if q < 0 then 0
  else (Nat.sqrt q.num.natAbs : ℚ) / (Nat.sqrt q.den : ℚ)

/-- Concrete `MathOps` instantiation for witnesses and counterexamples:
an exact square root on perfect squares, and arbitrary (zero) values for
the trigonometric functions and the random source, which the evaluated
branches never consult. -/
def testOps : MathOps :=
  { sqrt := ratSqrt
    cos := fun _ => 0
    sin := fun _ => 0
    atan2 := fun _ _ => 0
    pi := 3
    rand := fun _ => 0 }


/-- `torusWrap` from `geometry.ts`: fold both coordinates into the world
rectangle with the double-`%` idiom that is well-defined for negative
inputs. -/
def torusWrap (position : Position) (worldWidth worldHeight : ℚ) : Position :=
  { x := jsMod (jsMod position.x worldWidth + worldWidth) worldWidth,
    y := jsMod (jsMod position.y worldHeight + worldHeight) worldHeight }

/-- `torusDistance` from `geometry.ts`: Euclidean length of the per-axis
shorter of the direct and the wrap-around delta. -/
def torusDistance (ops : MathOps) (a b : Position)
    (worldWidth worldHeight : ℚ) : ℚ :=
  let dx := |a.x - b.x|
  let dy := |a.y - b.y|
  let wrappedDx := min dx (worldWidth - dx)
  let wrappedDy := min dy (worldHeight - dy)
  ops.sqrt (wrappedDx * wrappedDx + wrappedDy * wrappedDy)

/-- The first while loop of `normalizeAngle` (`while (a > π) a -= 2π`),
with explicit fuel bounding the iteration count. -/
def normDown (piv : ℚ) : ℕ → ℚ → ℚ
  | 0, a => a
  | n + 1, a => if piv < a then normDown piv n (a - 2 * piv) else a

/-- The second while loop of `normalizeAngle` (`while (a < -π) a += 2π`),
with explicit fuel bounding the iteration count. -/
def normUp (piv : ℚ) : ℕ → ℚ → ℚ
  | 0, a => a
  | n + 1, a => if a < -piv then normUp piv n (a + 2 * piv) else a

/-- `normalizeAngle` from `geometry.ts`: repeatedly add or subtract 2π
until the angle lies within [-π, π].  The fuel is sufficient for every
positive `pi` (the source's loops terminate exactly then); no theorem below
depends on this function's value. -/
def normalizeAngle (ops : MathOps) (angle : ℚ) : ℚ :=
  let fuel : ℕ := if 0 < ops.pi then (⌈|angle| / ops.pi⌉).toNat + 2 else 0
  normUp ops.pi fuel (normDown ops.pi fuel angle)

/-- Parameters of the basic random-walk move (`movement.ts`). -/
structure MovementParams where
  speed : ℚ
  randomTurnRange : ℚ

/-- Parameters of the biased move (`movement.ts`). -/
structure BiasedMovementParams where
  speed : ℚ
  randomTurnRange : ℚ
  biasStrength : ℚ

/-- A movement outcome (`movement.ts` `MovementResult`). -/
structure MovementResult where
  position : Position
  direction : ℚ
deriving DecidableEq, Repr

/-- `moveAnt` from `movement.ts`: perturb the heading by uniform noise and
step `speed` units along it, wrapping the position. -/
def moveAnt (ops : MathOps) (position : Position) (direction : ℚ)
    (worldWidth worldHeight : ℚ) (params : MovementParams) : MovementResult :=
  let randomTurn := (ops.rand 0 - 1/2) * params.randomTurnRange
  let newDirection := direction + randomTurn
  let newPosition : Position :=
    { x := position.x + ops.cos newDirection * params.speed,
      y := position.y + ops.sin newDirection * params.speed }
  { position := torusWrap newPosition worldWidth worldHeight,
    direction := newDirection }

/-- `moveTowardsTarget` from `movement.ts`: move `speed` units along the
toroidally shortest displacement toward the target, snapping exactly onto
the target when closer than `speed`. -/
def moveTowardsTarget (ops : MathOps) (position target : Position)
    (worldWidth worldHeight speed : ℚ) : Position :=
  let dx := target.x - position.x
  let dy := target.y - position.y
  let wrappedDx :=
    if worldWidth / 2 < dx then dx - worldWidth
    else if dx < -(worldWidth / 2) then dx + worldWidth else dx
  let wrappedDy :=
    if worldHeight / 2 < dy then dy - worldHeight
    else if dy < -(worldHeight / 2) then dy + worldHeight else dy
  let distance := ops.sqrt (wrappedDx * wrappedDx + wrappedDy * wrappedDy)
  if distance < speed then target
  else
    let moveX := wrappedDx / distance * speed
    let moveY := wrappedDy / distance * speed
    torusWrap { x := position.x + moveX, y := position.y + moveY }
      worldWidth worldHeight

/-- `moveWithBias` from `movement.ts`: blend the normalized angular delta
toward the target (weighted by the bias strength) with random noise, then
step and wrap. -/
def moveWithBias (ops : MathOps) (position : Position) (direction : ℚ)
    (target : Position) (worldWidth worldHeight : ℚ)
    (params : BiasedMovementParams) : MovementResult :=
  let dx := target.x - position.x
  let dy := target.y - position.y
  let wrappedDx :=
    if worldWidth / 2 < dx then dx - worldWidth
    else if dx < -(worldWidth / 2) then dx + worldWidth else dx
  let wrappedDy :=
    if worldHeight / 2 < dy then dy - worldHeight
    else if dy < -(worldHeight / 2) then dy + worldHeight else dy
  let targetDirection := ops.atan2 wrappedDy wrappedDx
  let randomTurn := (ops.rand 1 - 1/2) * params.randomTurnRange
  let directionToTarget := targetDirection - direction
  let adjustedDirectionToTarget :=
    if ops.pi < directionToTarget then directionToTarget - 2 * ops.pi
    else if directionToTarget < -ops.pi then directionToTarget + 2 * ops.pi
    else directionToTarget
  let newDirection := direction +
    adjustedDirectionToTarget * params.biasStrength +
    randomTurn * (1 - params.biasStrength)
  let newPosition : Position :=
    { x := position.x + ops.cos newDirection * params.speed,
      y := position.y + ops.sin newDirection * params.speed }
  { position := torusWrap newPosition worldWidth worldHeight,
    direction := newDirection }

/-- Collision-avoidance parameters (`collision.ts`). -/
structure CollisionParams where
  avoidanceRadius : ℚ
  avoidanceStrength : ℚ

/-- A collision-avoidance outcome (`collision.ts` `CollisionResult`). -/
structure CollisionResult where
  direction : ℚ
  position : Position
deriving DecidableEq, Repr

/-- The `forEach` body of `avoidCollisions` (`collision.ts`): accumulate a
normalized, distance-weighted repulsion vector and a neighbor count over
the other ants, skipping the caller itself by id, out-of-radius ants, and
the degenerate zero-distance / zero-length cases. -/
def avoidStep (ops : MathOps) (position : Position) (currentAntId : String)
    (worldWidth worldHeight : ℚ) (params : CollisionParams)
    (acc : (ℚ × ℚ) × ℕ) (ant : Ant) : (ℚ × ℚ) × ℕ :=
  if ant.id = currentAntId then acc
  else
    let distance := torusDistance ops position ant.position worldWidth worldHeight
    if distance < params.avoidanceRadius ∧ 0 < distance then
      let dx := position.x - ant.position.x
      let dy := position.y - ant.position.y
      let wrappedDx :=
        if worldWidth / 2 < dx then dx - worldWidth
        else if dx < -(worldWidth / 2) then dx + worldWidth else dx
      let wrappedDy :=
        if worldHeight / 2 < dy then dy - worldHeight
        else if dy < -(worldHeight / 2) then dy + worldHeight else dy
      let weight := (params.avoidanceRadius - distance) / params.avoidanceRadius
      let length := ops.sqrt (wrappedDx * wrappedDx + wrappedDy * wrappedDy)
      if 0 < length then
        ((acc.1.1 + wrappedDx / length * weight,
          acc.1.2 + wrappedDy / length * weight), acc.2 + 1)
      else acc
    else acc

/-- `avoidCollisions` from `collision.ts`: with no contributing neighbor
return the inputs unchanged; otherwise blend the heading toward the summed
repulsion's angle (blend strength capped at 1 and scaled by the neighbor
count) and nudge the position along the repulsion vector. -/
def avoidCollisions (ops : MathOps) (position : Position) (direction : ℚ)
    (otherAnts : List Ant) (currentAntId : String)
    (worldWidth worldHeight : ℚ) (params : CollisionParams) :
    CollisionResult :=
  let fc := otherAnts.foldl
    (avoidStep ops position currentAntId worldWidth worldHeight params)
    ((0, 0), 0)
  let avoidanceForce := fc.1
  let collisionCount := fc.2
  if collisionCount = 0 then { direction := direction, position := position }
  else
    let avoidanceDirection := ops.atan2 avoidanceForce.2 avoidanceForce.1
    let finalAvoidanceStrength :=
      min ((collisionCount : ℚ) * params.avoidanceStrength) 1
    let directionDiff := normalizeAngle ops (avoidanceDirection - direction)
    let newDirection := direction + directionDiff * finalAvoidanceStrength
    let adjustmentStrength := finalAvoidanceStrength * (1/2)
    let newPosition : Position :=
      { x := position.x + avoidanceForce.1 * adjustmentStrength,
        y := position.y + avoidanceForce.2 * adjustmentStrength }
    { direction := newDirection,
      position := torusWrap newPosition worldWidth worldHeight }

/-- Pheromone-tracking sensor parameters (`pathfinding` revision of
`pheromone.ts`). -/
structure PheromoneTrackingParams where
  sensorDistance : ℚ
  sensorAngle : ℚ
  detectionRadius : ℚ
  minimumStrength : ℚ

/-- The default tracking parameters of `followPheromone`: sensor distance
20, sensor angle π/4, detection radius 30, minimum strength 0.1. -/
def defaultTrackingParams (ops : MathOps) : PheromoneTrackingParams :=
  { sensorDistance := 20
    sensorAngle := ops.pi / 4
    detectionRadius := 30
    minimumStrength := 1/10 }

/-- One sensor reading of `followPheromone`: project the sensor ahead of
the position along the sensor angle and accumulate the toroidal
distance-attenuated intensities of matching entries within the detection
radius. -/
def sensorStrengthAt (ops : MathOps) (position : Position)
    (pheromones : PherMap) (targetType : PherType)
    (worldWidth worldHeight : ℚ) (params : PheromoneTrackingParams)
    (angle : ℚ) : ℚ :=
  let sensorPos : Position :=
    { x := position.x + ops.cos angle * params.sensorDistance,
      y := position.y + ops.sin angle * params.sensorDistance }
  pheromones.foldl
    (fun totalStrength kp =>
      if kp.2.type = targetType then
        let distance :=
          torusDistance ops sensorPos kp.2.position worldWidth worldHeight
        if distance < params.detectionRadius then
          totalStrength + kp.2.intensity / (1 + distance)
        else totalStrength
      else totalStrength)
    0

/-- `followPheromone` (pathfinding revision of `pheromone.ts`): measure the
target pheromone strength at the left, center and right sensors; when the
first sensor attaining the maximum reads strictly above the minimum
strength, head toward it, otherwise keep the current direction.  The
`maxIndex` if-chain renders `indexOf` applied to the maximum: the first
index holding it. -/
def followPheromone (ops : MathOps) (position : Position)
    (pheromones : PherMap) (targetType : PherType) (direction : ℚ)
    (worldWidth worldHeight : ℚ) (params : PheromoneTrackingParams) : ℚ :=
  let sensors := [direction - params.sensorAngle, direction,
    direction + params.sensorAngle]
  let s0 := sensorStrengthAt ops position pheromones targetType
    worldWidth worldHeight params (direction - params.sensorAngle)
  let s1 := sensorStrengthAt ops position pheromones targetType
    worldWidth worldHeight params direction
  let s2 := sensorStrengthAt ops position pheromones targetType
    worldWidth worldHeight params (direction + params.sensorAngle)
  let sensorStrengths := [s0, s1, s2]
  let maxStrength := max (max s0 s1) s2
  let maxIndex : ℕ :=
    if s0 = maxStrength then 0 else if s1 = maxStrength then 1 else 2
  if params.minimumStrength < sensorStrengths.getD maxIndex 0 then
    sensors.getD maxIndex direction
  else direction

-- Behavior-control constants of `ant-behavior.ts`.

/-- Distance within which food is detected. -/
def FOOD_DETECTION_RANGE : ℚ := 20

/-- Distance within which food is collected. -/
def FOOD_COLLECTION_RANGE : ℚ := 10

/-- Distance within which the nest counts as reached. -/
def NEST_ARRIVAL_RANGE : ℚ := 10

/-- Radius at which collision avoidance engages. -/
def COLLISION_AVOIDANCE_RADIUS : ℚ := 6

/-- Ant movement speed. -/
def ANT_SPEED : ℚ := 2

/-- Bias strength used when approaching food. -/
def FOOD_APPROACH_BIAS : ℚ := 2/5

/-- The read-only context handed to `executeAntBehavior`
(`ant-behavior.ts` `AntBehaviorContext`). -/
structure AntBehaviorContext where
  ant : Ant
  foods : List Food
  pheromones : PherMap
  nest : Position
  worldWidth : ℚ
  worldHeight : ℚ
  pheromoneDepositAmount : ℚ
  pheromoneTrackingStrength : ℚ
  ants : List Ant

/-- A `Partial<Ant>` update: each field is absent (`none`) or present.
Present `targetFood` / `foodAmount` carry an `Option` themselves because
the source assigns `null` to them. -/
structure AntUpdate where
  position : Option Position := none
  direction : Option ℚ := none
  hasFood : Option Bool := none
  targetFood : Option (Option String) := none
  foodAmount : Option (Option ℚ) := none
deriving DecidableEq, Repr

/-- A food amount update (`ant-behavior.ts` `foodUpdate`). -/
structure FoodUpdate where
  id : String
  amount : ℚ
deriving DecidableEq, Repr

/-- The outcome of one ant's behavior (`ant-behavior.ts`
`AntBehaviorResult`). -/
structure AntBehaviorResult where
  antUpdate : Option AntUpdate := none
  pheromoneUpdates : PherMap := []
  foodUpdate : Option FoodUpdate := none
  removeFood : Option String := none
deriving DecidableEq, Repr

/-- `calculateFoodQualityMultiplier` from `ant-behavior.ts`; the JS
falsiness test `!foodAmount` also maps amount 0 to multiplier 1. -/
def calculateFoodQualityMultiplier (foodAmount : Option ℚ) : ℚ :=
  match foodAmount with
  | none => 1
  | some q => if q = 0 then 1 else 1 + min (q / 30) 2

/-- `detectNearbyFood` from `ant-behavior.ts`: the first food within the
detection range (`Array.find`). -/
def detectNearbyFood (ops : MathOps) (context : AntBehaviorContext) :
    Option Food :=
  context.foods.find? (fun food =>
    torusDistance ops context.ant.position food.position
      context.worldWidth context.worldHeight ≤ FOOD_DETECTION_RANGE)

/-- `collectFood` from `ant-behavior.ts`: flag the ant as carrying,
remember the food id and its pre-collection amount, and either decrement
the food's amount or schedule its removal when the decremented amount is
not positive. -/
def collectFood (food : Food) : AntBehaviorResult :=
  let newAmount := food.amount - 1
  { antUpdate := some
      { hasFood := some true
        targetFood := some (some food.id)
        foodAmount := some (some food.amount) }
    pheromoneUpdates := []
    foodUpdate :=
      if 0 < newAmount then some { id := food.id, amount := newAmount }
      else none
    removeFood := if newAmount ≤ 0 then some food.id else none }

/-- `approachFood` from `ant-behavior.ts`: biased move toward the food,
then collision avoidance. -/
def approachFood (ops : MathOps) (context : AntBehaviorContext)
    (food : Food) : AntBehaviorResult :=
  let m := moveWithBias ops context.ant.position context.ant.direction
    food.position context.worldWidth context.worldHeight
    { speed := ANT_SPEED, randomTurnRange := 4/5,
      biasStrength := FOOD_APPROACH_BIAS }
  let avoidanceResult := avoidCollisions ops m.position m.direction
    context.ants context.ant.id context.worldWidth context.worldHeight
    { avoidanceRadius := COLLISION_AVOIDANCE_RADIUS,
      avoidanceStrength := 1/2 }
  { antUpdate := some
      { position := some avoidanceResult.position
        direction := some avoidanceResult.direction }
    pheromoneUpdates := [] }

/-- `handleFoodInteraction` from `ant-behavior.ts`: collect when within
the collection range, approach otherwise. -/
def handleFoodInteraction (ops : MathOps) (context : AntBehaviorContext)
    (food : Food) : AntBehaviorResult :=
  let distanceToFood := torusDistance ops context.ant.position food.position
    context.worldWidth context.worldHeight
  if distanceToFood < FOOD_COLLECTION_RANGE then collectFood food
  else approachFood ops context food

/-- `shouldFollowPheromone` from `ant-behavior.ts`: follow only when the
field is nonempty, a random draw falls below the tracking strength, and
the candidate heading differs meaningfully from the current one. -/
def shouldFollowPheromone (ops : MathOps) (context : AntBehaviorContext)
    (pheromoneDirection : ℚ) : Bool :=
  if context.pheromones.length = 0 then false
  else if context.pheromoneTrackingStrength ≤ ops.rand 2 then false
  else
    let directionDiff := |pheromoneDirection - context.ant.direction|
    let normalizedDiff := min directionDiff (2 * ops.pi - directionDiff)
    decide (1/10 < normalizedDiff)

/-- `executeExploration` from `ant-behavior.ts`: optionally adopt the
pheromone-following heading, random-walk, then collision avoidance. -/
def executeExploration (ops : MathOps) (context : AntBehaviorContext) :
    AntBehaviorResult :=
  let pheromoneDirection := followPheromone ops context.ant.position
    context.pheromones PherType.toFood context.ant.direction
    context.worldWidth context.worldHeight (defaultTrackingParams ops)
  let shouldFollow := shouldFollowPheromone ops context pheromoneDirection
  let m :=
    if shouldFollow then
      moveAnt ops context.ant.position pheromoneDirection
        context.worldWidth context.worldHeight
        { speed := ANT_SPEED, randomTurnRange := 1/2 }
    else
      moveAnt ops context.ant.position context.ant.direction
        context.worldWidth context.worldHeight
        { speed := ANT_SPEED, randomTurnRange := 1/2 }
  let avoidanceResult := avoidCollisions ops m.position m.direction
    context.ants context.ant.id context.worldWidth context.worldHeight
    { avoidanceRadius := COLLISION_AVOIDANCE_RADIUS,
      avoidanceStrength := 1/2 }
  { antUpdate := some
      { position := some avoidanceResult.position
        direction := some avoidanceResult.direction }
    pheromoneUpdates := [] }

/-- `executeForagingBehavior` from `ant-behavior.ts`. -/
def executeForagingBehavior (ops : MathOps) (context : AntBehaviorContext) :
    AntBehaviorResult :=
  match detectNearbyFood ops context with
  | some nearbyFood => handleFoodInteraction ops context nearbyFood
  | none => executeExploration ops context

/-- `moveTowardsNest` from `ant-behavior.ts`: seek the nest, recompute the
facing from the toroidally shortest bearing to the nest, then collision
avoidance. -/
def moveTowardsNest (ops : MathOps) (context : AntBehaviorContext) :
    AntUpdate :=
  let newPosition := moveTowardsTarget ops context.ant.position context.nest
    context.worldWidth context.worldHeight ANT_SPEED
  let dx := context.nest.x - context.ant.position.x
  let dy := context.nest.y - context.ant.position.y
  let wrappedDx :=
    if context.worldWidth / 2 < dx then dx - context.worldWidth
    else if dx < -(context.worldWidth / 2) then dx + context.worldWidth
    else dx
  let wrappedDy :=
    if context.worldHeight / 2 < dy then dy - context.worldHeight
    else if dy < -(context.worldHeight / 2) then dy + context.worldHeight
    else dy
  let newDirection := ops.atan2 wrappedDy wrappedDx
  let avoidanceResult := avoidCollisions ops newPosition newDirection
    context.ants context.ant.id context.worldWidth context.worldHeight
    { avoidanceRadius := COLLISION_AVOIDANCE_RADIUS,
      avoidanceStrength := 1/2 }
  { position := some avoidanceResult.position
    direction := some avoidanceResult.direction }

/-- `executeReturningBehavior` from `ant-behavior.ts`: on arrival at the
nest clear the carrying state with no movement; otherwise move toward the
nest and lay a `toFood` trail at the pre-move position, scaled by the food
quality multiplier. -/
def executeReturningBehavior (ops : MathOps)
    (context : AntBehaviorContext) : AntBehaviorResult :=
  let distanceToNest := torusDistance ops context.ant.position context.nest
    context.worldWidth context.worldHeight
  if distanceToNest < NEST_ARRIVAL_RANGE then
    { antUpdate := some
        { hasFood := some false
          targetFood := some none
          foodAmount := some none }
      pheromoneUpdates := [] }
  else
    let movement := moveTowardsNest ops context
    let foodQualityMultiplier :=
      calculateFoodQualityMultiplier context.ant.foodAmount
    let newPheromones := depositPheromone context.pheromones
      context.ant.position PherType.toFood
      (context.pheromoneDepositAmount * foodQualityMultiplier)
    { antUpdate := some movement
      pheromoneUpdates := newPheromones }

/-- `executeAntBehavior` from `ant-behavior.ts`: dispatch on the carrying
state. -/
def executeAntBehavior (ops : MathOps) (context : AntBehaviorContext) :
    AntBehaviorResult :=
  if context.ant.hasFood then executeReturningBehavior ops context
  else executeForagingBehavior ops context

/-- The orchestrator's input snapshot (`SimulationState` of the simulation
step module). -/
structure SimulationState where
  ants : List Ant
  foods : List Food
  pheromones : PherMap
  nest : Position

/-- The configuration fields the simulation step reads
(`SimulationConfig`). -/
structure SimulationConfig where
  worldWidth : ℚ
  worldHeight : ℚ
  pheromoneDepositAmount : ℚ
  pheromoneTrackingStrength : ℚ

/-- The orchestrator's output (`SimulationUpdate`): each component is
either absent or the replacement value. -/
structure SimulationUpdate where
  ants : Option (List Ant) := none
  foods : Option (List Food) := none
  pheromones : Option PherMap := none
deriving DecidableEq, Repr

/-- One ant's tagged behavior outcome (the simulation step module's
`AntBehaviorResult` wrapper). -/
structure TaggedBehaviorResult where
  antId : String
  result : AntBehaviorResult
deriving DecidableEq, Repr

/-- The behavior context literal built inside `processAllAnts`. -/
def behaviorContext (config : SimulationConfig) (state : SimulationState)
    (ant : Ant) : AntBehaviorContext :=
  { ant := ant
    foods := state.foods
    pheromones := state.pheromones
    nest := state.nest
    worldWidth := config.worldWidth
    worldHeight := config.worldHeight
    pheromoneDepositAmount := config.pheromoneDepositAmount
    pheromoneTrackingStrength := config.pheromoneTrackingStrength
    ants := state.ants }

/-- `processAllAnts`: run every ant's behavior against the same input
snapshot. -/
def processAllAnts (ops : MathOps) (config : SimulationConfig)
    (state : SimulationState) : List TaggedBehaviorResult :=
  state.ants.map (fun ant =>
    { antId := ant.id
      result := executeAntBehavior ops (behaviorContext config state ant) })

/-- The JS object spread `{...ant, ...antUpdate}`: present update fields
override the ant's. -/
def mergeAnt (ant : Ant) (u : AntUpdate) : Ant :=
  { id := ant.id
    position := u.position.getD ant.position
    direction := u.direction.getD ant.direction
    hasFood := u.hasFood.getD ant.hasFood
    targetFood := u.targetFood.getD ant.targetFood
    foodAmount := u.foodAmount.getD ant.foodAmount }

/-- `applyBehaviorResults`: merge all per-ant updates by id, merge all
pheromone deposits over a copy of the old field (emitting it only when the
entry COUNT changed), and apply food removals then amount updates. -/
def applyBehaviorResults (state : SimulationState)
    (results : List TaggedBehaviorResult) : SimulationUpdate :=
  let antUpdates := results.foldl
    (fun acc r =>
      match r.result.antUpdate with
      | some u => assocSet acc r.antId u
      | none => acc)
    ([] : List (String × AntUpdate))
  let ants? :=
    if 0 < antUpdates.length then
      some (state.ants.map (fun ant =>
        match assocGet antUpdates ant.id with
        | some u => mergeAnt ant u
        | none => ant))
    else none
  let pheromoneUpdates := results.foldl
    (fun acc r =>
      r.result.pheromoneUpdates.foldl (fun acc2 kp => assocSet acc2 kp.1 kp.2)
        acc)
    state.pheromones
  let pheromones? :=
    if pheromoneUpdates.length ≠ state.pheromones.length then
      some pheromoneUpdates
    else none
  let foodsToRemove := results.foldl
    (fun acc r =>
      match r.result.removeFood with
      | some fid => if acc.contains fid then acc else acc ++ [fid]
      | none => acc)
    ([] : List String)
  let foodAmountUpdates := results.foldl
    (fun acc r =>
      match r.result.foodUpdate with
      | some fu => assocSet acc fu.id fu.amount
      | none => acc)
    ([] : List (String × ℚ))
  let foods? :=
    if 0 < foodsToRemove.length ∨ 0 < foodAmountUpdates.length then
      some ((state.foods.filter
          (fun food => !(foodsToRemove.contains food.id))).map
        (fun food =>
          match assocGet foodAmountUpdates food.id with
          | some a => { food with amount := a }
          | none => food))
    else none
  { ants := ants?, foods := foods?, pheromones := pheromones? }

/-- `executeSimulationStep`: run all ants against the snapshot and
aggregate the results. -/
def executeSimulationStep (ops : MathOps) (config : SimulationConfig)
    (state : SimulationState) : SimulationUpdate :=
  applyBehaviorResults state (processAllAnts ops config state)

/-- Modelled from the spec: the caller that commits the step's update over
the previous snapshot is not under src (only the orchestrator returning
the update is); per the spec the orchestrator "commits the merged result
as the new snapshot", an absent component leaving the old one unchanged. -/
def commitUpdate (state : SimulationState) (u : SimulationUpdate) :
    SimulationState :=
  { ants := u.ants.getD state.ants
    foods := u.foods.getD state.foods
    pheromones := u.pheromones.getD state.pheromones
    nest := state.nest }

/-- Modelled from the spec: the pheromone-strength query as claim C3 words
it — the sum of `intensity / (1 + d)` over exactly the entries of the
matching type whose TOROIDAL distance `d` from the query position is below
the detection radius 30.  The source's `getPheromoneStrength` takes no
world dimensions, so the toroidal reading must be supplied them. -/
def strengthSpecTorus (ops : MathOps) (pheromones : PherMap)
    (position : Position) (type : PherType)
    (worldWidth worldHeight : ℚ) : ℚ :=
  (((pheromones.map Prod.snd).filter (fun ph =>
      decide (ph.type = type) &&
        decide (torusDistance ops position ph.position
          worldWidth worldHeight < 30))).map
    (fun ph => ph.intensity /
      (1 + torusDistance ops position ph.position worldWidth worldHeight))).sum

/-- The plain (non-toroidal) Euclidean distance from the query position to
an entry's stored position, exactly as `getPheromoneStrength` computes
it. -/
def euclidDistTo (ops : MathOps) (position : Position) (ph : Pheromone) : ℚ :=
  ops.sqrt ((position.x - ph.position.x) * (position.x - ph.position.x) +
    (position.y - ph.position.y) * (position.y - ph.position.y))

/-- The sum `getPheromoneStrength` actually computes, in the spec's
filtered-sum shape: entries of the matching type whose PLAIN Euclidean
distance is below 30, each contributing `intensity / (1 + d)`. -/
def strengthSpecEuclid (ops : MathOps) (pheromones : PherMap)
    (position : Position) (type : PherType) : ℚ :=
  (((pheromones.map Prod.snd).filter (fun ph =>
      decide (ph.type = type) &&
        decide (euclidDistTo ops position ph < 30))).map
    (fun ph => ph.intensity / (1 + euclidDistTo ops position ph))).sum


/-- C1 failing-input fixture: a single returning ant at the origin with no
recorded food amount. -/
def c1Ant : Ant := ⟨("a1" : String), ⟨0, 0⟩, 0, true, none, none⟩

/-- C1 failing-input fixture: the snapshot holding that ant, no food, one
live pheromone entry of intensity 50 in the ant's own grid cell, and the
nest 30 units away. -/
def c1State : SimulationState :=
  { ants := [c1Ant]
    foods := []
    pheromones := [((0, 0), ⟨⟨5, 5⟩, 50, PherType.toFood⟩)]
    nest := ⟨30, 0⟩ }

/-- C1 failing-input fixture: an 800 × 600 world with deposit amount 2. -/
def c1Config : SimulationConfig := ⟨800, 600, 2, 7/10⟩

-- Basic association-list lemmas shared by several claims.

theorem assocGet_assocSet_self {κ α : Type} [DecidableEq κ]
    (m : List (κ × α)) (k : κ) (v : α) :
    assocGet (assocSet m k v) k = some v := by
  induction m with
  | nil => simp [assocSet, assocGet]
  | cons hd t ih =>
      obtain ⟨k', v'⟩ := hd
      by_cases h : k' = k
      · simp [assocSet, assocGet, h]
      · simp [assocSet, assocGet, h, ih]

theorem assocGet_assocSet_ne {κ α : Type} [DecidableEq κ]
    (m : List (κ × α)) (k k₁ : κ) (v : α) (h : k₁ ≠ k) :
    assocGet (assocSet m k₁ v) k = assocGet m k := by
  induction m with
  | nil => simp [assocSet, assocGet, h]
  | cons hd t ih =>
      obtain ⟨k', v'⟩ := hd
      by_cases hk : k' = k₁
      · subst hk
        simp [assocSet, assocGet, h]
      · simp [assocSet, assocGet, hk, ih]

theorem forall_mem_assocSet {κ α : Type} [DecidableEq κ]
    {P : κ × α → Prop} {m : List (κ × α)} {k : κ} {v : α}
    (hm : ∀ e ∈ m, P e) (hv : P (k, v)) :
    ∀ e ∈ assocSet m k v, P e := by
  induction m with
  | nil => simpa [assocSet]
  | cons hd t ih =>
      obtain ⟨k', v'⟩ := hd
      by_cases h : k' = k
      · subst h
        simp only [assocSet, if_pos rfl]
        intro e he
        rcases List.mem_cons.1 he with h | h
        · exact h ▸ hv
        · exact hm e (List.mem_cons_of_mem _ h)
      · simp only [assocSet, if_neg h]
        intro e he
        rcases List.mem_cons.1 he with h' | h'
        · exact h' ▸ hm _ (List.mem_cons_self _ _)
        · exact ih (fun e he => hm e (List.mem_cons_of_mem _ he)) e h'

-- C2: deposit onto an occupied cell keeps the EXISTING type (the source
-- spreads the existing entry and only overrides `intensity`).

/-- C2 counterexample: the claim says a deposit of the other type at an
occupied cell makes the stored type the newly deposited one; depositing
`toNest` onto a cell holding a live `toFood` entry leaves the type
`toFood`, so the claim is false. -/
theorem depositPheromone_latest_type_counterexample :
    (assocGet
        (depositPheromone [((0, 0), ⟨⟨5, 5⟩, 7, PherType.toFood⟩)]
          ⟨3, 4⟩ PherType.toNest 5)
        (0, 0)).map Pheromone.type = some PherType.toFood ∧
      PherType.toFood ≠ PherType.toNest := by
  refine ⟨?_, by decide⟩
  norm_num [depositPheromone, createPheromoneKey, assocGet, assocSet]

/-- C2 amended: when `depositPheromone` hits a cell that already holds a
live entry, the resulting entry keeps the existing entry's type (and
position), with intensity `min 100 (existing + amount)` — the cell keeps
its first-deposited type; a deposit of the other type only adds
intensity. -/
theorem depositPheromone_keeps_existing_type (m : PherMap) (p : Position)
    (t : PherType) (a : ℚ) (e : Pheromone)
    (h : assocGet m (createPheromoneKey p) = some e) :
    assocGet (depositPheromone m p t a) (createPheromoneKey p) =
        some { e with intensity := min 100 (e.intensity + a) } ∧
      (assocGet (depositPheromone m p t a) (createPheromoneKey p)).map
          Pheromone.type = some e.type := by
  have hmain :
      assocGet (depositPheromone m p t a) (createPheromoneKey p) =
        some { e with intensity := min 100 (e.intensity + a) } := by
    simp only [depositPheromone, h, assocGet_assocSet_self]
  exact ⟨hmain, by simp [hmain]⟩

/-- C2 witness: the amended theorem applied to a concrete occupied cell. -/
theorem depositPheromone_keeps_existing_type_witness :
    assocGet
        (depositPheromone [((0, 0), ⟨⟨5, 5⟩, 7, PherType.toFood⟩)]
          ⟨3, 4⟩ PherType.toNest 5)
        (createPheromoneKey ⟨3, 4⟩) =
        some ⟨⟨5, 5⟩, 12, PherType.toFood⟩ := by
  have h := depositPheromone_keeps_existing_type
    [((0, 0), ⟨⟨5, 5⟩, 7, PherType.toFood⟩)] ⟨3, 4⟩ PherType.toNest 5
    ⟨⟨5, 5⟩, 7, PherType.toFood⟩
    (by norm_num [createPheromoneKey, assocGet])
  rw [h.1]
  norm_num

-- C5: the deposit cap.  A FIRST deposit into an empty cell stores the raw
-- amount uncapped, so arbitrary amounts can exceed 100; amounts up to 100
-- can never push a stored intensity above 100.

/-- C5 counterexample: a single deposit of amount 150 into an empty cell
stores intensity 150, so with arbitrary deposit amounts the stored
intensity can exceed 100 and the claim is false. -/
theorem depositPheromone_cap_counterexample :
    assocGet (depositPheromone [] ⟨0, 0⟩ PherType.toFood 150) (0, 0) =
        some ⟨⟨5, 5⟩, 150, PherType.toFood⟩ ∧
      (100 : ℚ) < 150 := by
  refine ⟨?_, by norm_num⟩
  norm_num [depositPheromone, createPheromoneKey, assocGet, assocSet]

theorem depositPheromone_intensity_le (f : PherMap) (p : Position)
    (t : PherType) (a : ℚ)
    (hf : ∀ e ∈ f, e.2.intensity ≤ 100) (ha : a ≤ 100) :
    ∀ e ∈ depositPheromone f p t a, e.2.intensity ≤ 100 := by
  cases h : assocGet f (createPheromoneKey p) with
  | some existing =>
      simp only [depositPheromone, h]
      exact forall_mem_assocSet hf (min_le_left _ _)
  | none =>
      simp only [depositPheromone, h]
      exact forall_mem_assocSet hf ha

/-- C5 amended: for every sequence of `depositPheromone` calls in which
each individual deposited amount is at most 100, starting from a field all
of whose intensities are at most 100 (in particular the empty field), every
stored entry's intensity stays at most 100 — regardless of the cumulative
deposited amount per cell. -/
theorem depositPheromone_sequence_cap (ds : List (Position × PherType × ℚ))
    (f : PherMap) (hf : ∀ e ∈ f, e.2.intensity ≤ 100)
    (hd : ∀ d ∈ ds, d.2.2 ≤ 100) :
    ∀ e ∈ ds.foldl (fun m d => depositPheromone m d.1 d.2.1 d.2.2) f,
      e.2.intensity ≤ 100 := by
  induction ds generalizing f with
  | nil => simp only [List.foldl_nil]; exact hf
  | cons d t ih =>
      simp only [List.foldl_cons]
      exact ih _
        (depositPheromone_intensity_le f d.1 d.2.1 d.2.2 hf
          (hd d (List.mem_cons_self _ _)))
        (fun d' hd' => hd d' (List.mem_cons_of_mem _ hd'))

/-- C5 witness: two deposits of 60 into the same cell cumulate to 120 but
the stored entry is capped at intensity 100, which is at most 100. -/
theorem depositPheromone_sequence_cap_witness :
    (((0, 0), (⟨⟨5, 5⟩, 100, PherType.toFood⟩ : Pheromone)) :
        PherKey × Pheromone).2.intensity ≤ 100 := by
  have h := depositPheromone_sequence_cap
    [(⟨0, 0⟩, PherType.toFood, 60), (⟨0, 0⟩, PherType.toFood, 60)]
    [] (by simp) (by norm_num)
  refine h _ ?_
  have hfold : List.foldl (fun m d => depositPheromone m d.1 d.2.1 d.2.2)
      ([] : PherMap)
      [(⟨0, 0⟩, PherType.toFood, 60), (⟨0, 0⟩, PherType.toFood, 60)] =
      [((0, 0), ⟨⟨5, 5⟩, 100, PherType.toFood⟩)] := by
    norm_num [depositPheromone, createPheromoneKey, assocGet, assocSet]
  rw [hfold]
  exact List.mem_singleton.2 rfl

-- C4: exponential decay.  Characterize a single decay step on a per-key
-- basis, then iterate.

theorem assocGet_eq_none_iff {κ α : Type} [DecidableEq κ]
    (m : List (κ × α)) (k : κ) :
    assocGet m k = none ↔ ∀ e ∈ m, e.1 ≠ k := by
  induction m with
  | nil => simp [assocGet]
  | cons hd t ih =>
      obtain ⟨k', v'⟩ := hd
      by_cases h : k' = k
      · subst h
        simp [assocGet]
      · simp [assocGet, h, ih]

theorem foldl_decayStep_frame (r : ℚ) (f : PherMap) (k : PherKey) :
    ∀ acc : PherMap, (∀ e ∈ f, e.1 ≠ k) →
      assocGet (f.foldl (decayStep r) acc) k = assocGet acc k := by
  induction f with
  | nil => intro acc _; rfl
  | cons hd t ih =>
      intro acc hne
      simp only [List.foldl_cons]
      rw [ih _ fun e he => hne e (List.mem_cons_of_mem _ he)]
      unfold decayStep
      by_cases hkeep : 1/100 < hd.2.intensity * r
      · rw [if_pos hkeep,
          assocGet_assocSet_ne _ _ _ _ (hne hd (List.mem_cons_self _ _))]
      · rw [if_neg hkeep]

theorem decayPheromones_absent (g : PherMap) (r : ℚ) (k : PherKey)
    (h : assocGet g k = none) :
    assocGet (decayPheromones g r) k = none := by
  unfold decayPheromones
  rw [foldl_decayStep_frame r g k [] ((assocGet_eq_none_iff g k).1 h)]
  rfl

theorem foldl_decayStep_lookup (r : ℚ) (f : PherMap) (k : PherKey)
    (p : Pheromone) :
    ∀ acc : PherMap, (f.map Prod.fst).Nodup → assocGet f k = some p →
      assocGet acc k = none →
      assocGet (f.foldl (decayStep r) acc) k =
        if 1/100 < p.intensity * r then
          some ⟨p.position, p.intensity * r, p.type⟩
        else none := by
  induction f with
  | nil => intro acc _ hk _; simp [assocGet] at hk
  | cons hd t ih =>
      intro acc hnd hk hacc
      obtain ⟨k₁, p₁⟩ := hd
      simp only [List.map_cons, List.nodup_cons] at hnd
      by_cases h : k₁ = k
      · subst h
        have hp : p₁ = p := by simpa [assocGet] using hk
        subst hp
        have hne : ∀ e ∈ t, e.1 ≠ k₁ := by
          intro e he hek
          exact hnd.1 (hek ▸ List.mem_map_of_mem Prod.fst he)
        simp only [List.foldl_cons]
        rw [foldl_decayStep_frame r t k₁ _ hne]
        unfold decayStep
        by_cases hkeep : 1/100 < p₁.intensity * r
        · rw [if_pos hkeep, if_pos hkeep, assocGet_assocSet_self]
        · rw [if_neg hkeep, if_neg hkeep, hacc]
      · have hk' : assocGet t k = some p := by simpa [assocGet, h] using hk
        simp only [List.foldl_cons]
        refine ih _ hnd.2 hk' ?_
        unfold decayStep
        by_cases hkeep : 1/100 < p₁.intensity * r
        · rw [if_pos hkeep, assocGet_assocSet_ne _ _ _ _ h, hacc]
        · rw [if_neg hkeep, hacc]

theorem decayPheromones_lookup (f : PherMap) (r : ℚ) (k : PherKey)
    (p : Pheromone) (hnd : (f.map Prod.fst).Nodup)
    (hk : assocGet f k = some p) :
    assocGet (decayPheromones f r) k =
      if 1/100 < p.intensity * r then
        some ⟨p.position, p.intensity * r, p.type⟩
      else none :=
  foldl_decayStep_lookup r f k p [] hnd hk rfl

theorem keys_assocSet_sublist {κ α : Type} [DecidableEq κ]
    (m : List (κ × α)) (k : κ) (v : α) :
    ((assocSet m k v).map Prod.fst).Sublist (m.map Prod.fst ++ [k]) := by
  induction m with
  | nil => simp [assocSet]
  | cons hd t ih =>
      obtain ⟨k', v'⟩ := hd
      by_cases h : k' = k
      · subst h
        simp only [assocSet, if_pos rfl, List.map_cons, List.cons_append]
        exact List.Sublist.cons₂ _ (List.sublist_append_left _ _)
      · simp only [assocSet, if_neg h, List.map_cons, List.cons_append]
        exact List.Sublist.cons₂ _ ih

theorem foldl_decayStep_keys_sublist (r : ℚ) (f : PherMap) :
    ∀ acc : PherMap,
      ((f.foldl (decayStep r) acc).map Prod.fst).Sublist
        (acc.map Prod.fst ++ f.map Prod.fst) := by
  induction f with
  | nil => intro acc; simp
  | cons hd t ih =>
      intro acc
      simp only [List.foldl_cons, List.map_cons]
      refine (ih (decayStep r acc hd)).trans ?_
      have hstep : ((decayStep r acc hd).map Prod.fst).Sublist
          (acc.map Prod.fst ++ [hd.1]) := by
        unfold decayStep
        by_cases hkeep : 1/100 < hd.2.intensity * r
        · rw [if_pos hkeep]
          exact keys_assocSet_sublist _ _ _
        · rw [if_neg hkeep]
          exact List.sublist_append_left _ _
      simpa [List.append_assoc] using hstep.append_right (t.map Prod.fst)

theorem decayPheromones_keys_nodup (f : PherMap) (r : ℚ)
    (hnd : (f.map Prod.fst).Nodup) :
    ((decayPheromones f r).map Prod.fst).Nodup := by
  have h := foldl_decayStep_keys_sublist r f []
  simp only [List.map_nil, List.nil_append] at h
  exact hnd.sublist h

theorem decayIter_lookup (f : PherMap) (r : ℚ) (k : PherKey) (p : Pheromone)
    (hnd : (f.map Prod.fst).Nodup) (hk : assocGet f k = some p) :
    ∀ n : ℕ, ((decayIter r n f).map Prod.fst).Nodup ∧
      (assocGet (decayIter r n f) k = none ∨
        assocGet (decayIter r n f) k =
          some ⟨p.position, p.intensity * r ^ n, p.type⟩) := by
  intro n
  induction n with
  | zero =>
      refine ⟨hnd, Or.inr ?_⟩
      cases p with
      | mk pos i ty => simpa [decayIter] using hk
  | succ n ih =>
      obtain ⟨ihnd, ihor⟩ := ih
      refine ⟨decayPheromones_keys_nodup _ _ ihnd, ?_⟩
      rcases ihor with hnone | hsome
      · exact Or.inl (decayPheromones_absent _ _ _ hnone)
      · rw [show decayIter r (n + 1) f = decayPheromones (decayIter r n f) r
          from rfl, decayPheromones_lookup _ _ _ _ ihnd hsome]
        by_cases hkeep : 1/100 < p.intensity * r ^ n * r
        · rw [if_pos hkeep]
          right
          rw [mul_assoc, ← pow_succ]
        · rw [if_neg hkeep]
          left
          rfl

theorem decayIter_present_succ (f : PherMap) (r : ℚ) (k : PherKey)
    (p q : Pheromone) (hnd : (f.map Prod.fst).Nodup)
    (hk : assocGet f k = some p) (n : ℕ)
    (hq : assocGet (decayIter r (n + 1) f) k = some q) :
    1/100 < p.intensity * r ^ (n + 1) := by
  obtain ⟨ihnd, ihor⟩ := decayIter_lookup f r k p hnd hk n
  rcases ihor with hnone | hsome
  · rw [show decayIter r (n + 1) f = decayPheromones (decayIter r n f) r
      from rfl, decayPheromones_absent _ _ _ hnone] at hq
    exact absurd hq (by simp)
  · rw [show decayIter r (n + 1) f = decayPheromones (decayIter r n f) r
      from rfl, decayPheromones_lookup _ _ _ _ ihnd hsome] at hq
    by_cases hkeep : 1/100 < p.intensity * r ^ n * r
    · rw [mul_assoc, ← pow_succ] at hkeep
      exact hkeep
    · rw [if_neg hkeep] at hq
      exact absurd hq (by simp)

theorem decay_eventually_removed (f : PherMap) (r : ℚ) (k : PherKey)
    (p : Pheromone) (hnd : (f.map Prod.fst).Nodup) (hr : r < 1)
    (hp : 0 < p.intensity) (hk : assocGet f k = some p) :
    ∃ n : ℕ, 1 ≤ n ∧ assocGet (decayIter r n f) k = none := by
  rcases le_or_lt r 0 with hr0 | hr0
  · refine ⟨1, le_refl 1, ?_⟩
    cases hq : assocGet (decayIter r 1 f) k with
    | none => rfl
    | some q =>
        have hs := decayIter_present_succ f r k p q hnd hk 0 hq
        have hs1 : 1/100 < p.intensity * r := by
          simpa using hs
        have hnp : p.intensity * r ≤ 0 :=
          mul_nonpos_of_nonneg_of_nonpos hp.le hr0
        linarith
  · obtain ⟨m, hm⟩ :=
      exists_pow_lt_of_lt_one (x := 1 / (100 * p.intensity)) (by positivity) hr
    refine ⟨m + 1, Nat.le_add_left 1 m, ?_⟩
    cases hq : assocGet (decayIter r (m + 1) f) k with
    | none => rfl
    | some q =>
        have hs := decayIter_present_succ f r k p q hnd hk m hq
        have h1 : r ^ (m + 1) ≤ r ^ m :=
          pow_le_pow_of_le_one hr0.le hr.le (Nat.le_succ m)
        have h2 : p.intensity * r ^ m < 1 / 100 := by
          calc p.intensity * r ^ m
              < p.intensity * (1 / (100 * p.intensity)) :=
                mul_lt_mul_of_pos_left hm hp
            _ = 1 / 100 := by
              field_simp
              ring
        have h3 : p.intensity * r ^ (m + 1) ≤ p.intensity * r ^ m :=
          mul_le_mul_of_nonneg_left h1 hp.le
        linarith

/-- C4: for every live entry with positive intensity and decay rate below
one, a `decayPheromones` call multiplies the intensity by the rate (hence
strictly decreases it), removes the entry exactly when the decayed
intensity does not stay above the 0.01 threshold, never resurrects an
absent entry, and repeated decay eventually removes the entry; concretely,
an entry of intensity 100 decayed once at rate 0.9 yields intensity 90. -/
theorem decayPheromones_spec (f : PherMap) (r : ℚ) (k : PherKey)
    (p : Pheromone) (hnd : (f.map Prod.fst).Nodup) (hr : r < 1)
    (hp : 0 < p.intensity) (hk : assocGet f k = some p) :
    (∀ q : Pheromone, assocGet (decayPheromones f r) k = some q →
        q.intensity = p.intensity * r ∧ q.intensity < p.intensity) ∧
      (p.intensity * r ≤ 1/100 → assocGet (decayPheromones f r) k = none) ∧
      (∀ g : PherMap, assocGet g k = none →
        assocGet (decayPheromones g r) k = none) ∧
      (∃ n : ℕ, 1 ≤ n ∧ assocGet (decayIter r n f) k = none) ∧
      decayPheromones [((0, 0), ⟨⟨5, 5⟩, 100, PherType.toFood⟩)] (9/10) =
        [((0, 0), ⟨⟨5, 5⟩, 90, PherType.toFood⟩)] := by
  refine ⟨?_, ?_, fun g hg => decayPheromones_absent g r k hg,
    decay_eventually_removed f r k p hnd hr hp hk, ?_⟩
  · intro q hq
    rw [decayPheromones_lookup f r k p hnd hk] at hq
    by_cases hkeep : 1/100 < p.intensity * r
    · rw [if_pos hkeep] at hq
      have hqi : q.intensity = p.intensity * r := by
        cases hq
        rfl
      exact ⟨hqi, by
        rw [hqi]
        exact mul_lt_of_lt_one_right hp hr⟩
    · rw [if_neg hkeep] at hq
      exact absurd hq (by simp)
  · intro hle
    rw [decayPheromones_lookup f r k p hnd hk, if_neg (not_lt.2 hle)]
  · norm_num [decayPheromones, decayStep, assocSet]

/-- C4 witness: the decay theorem applied to a one-entry field of
intensity 100 at rate 0.9; the surviving entry has intensity 90, and some
number of repeated decay calls removes the entry. -/
theorem decayPheromones_spec_witness :
    (∀ q : Pheromone,
        assocGet
            (decayPheromones [((0, 0), ⟨⟨5, 5⟩, 100, PherType.toFood⟩)]
              (9/10)) (0, 0) = some q →
          q.intensity = 100 * (9/10) ∧ q.intensity < 100) ∧
      ∃ n : ℕ, 1 ≤ n ∧
        assocGet
          (decayIter (9/10) n [((0, 0), ⟨⟨5, 5⟩, 100, PherType.toFood⟩)])
          (0, 0) = none := by
  have h := decayPheromones_spec [((0, 0), ⟨⟨5, 5⟩, 100, PherType.toFood⟩)]
    (9/10) (0, 0) ⟨⟨5, 5⟩, 100, PherType.toFood⟩
    (by simp) (by norm_num) (by norm_num) (by simp [assocGet])
  exact ⟨h.1, h.2.2.2.1⟩

-- C3: the strength query sums over PLAIN Euclidean distances, not
-- toroidal ones.

theorem foldl_strengthStep_eq (ops : MathOps) (pos : Position)
    (t : PherType) :
    ∀ (m : PherMap) (c : ℚ),
      m.foldl (strengthStep ops pos t) c =
        c + strengthSpecEuclid ops m pos t := by
  intro m
  induction m with
  | nil => intro c; simp [strengthSpecEuclid]
  | cons kp m' ih =>
      intro c
      simp only [List.foldl_cons]
      rw [ih]
      by_cases ht : kp.2.type = t
      · by_cases hd : euclidDistTo ops pos kp.2 < 30
        · have hstep : strengthStep ops pos t c kp =
              c + kp.2.intensity / (1 + euclidDistTo ops pos kp.2) := by
            rw [strengthStep, if_pos ht]
            rw [euclidDistTo] at hd
            rw [if_pos hd]
            rfl
          have hspec : strengthSpecEuclid ops (kp :: m') pos t =
              kp.2.intensity / (1 + euclidDistTo ops pos kp.2) +
                strengthSpecEuclid ops m' pos t := by
            simp [strengthSpecEuclid, ht, hd]
          rw [hstep, hspec]
          ring
        · have hstep : strengthStep ops pos t c kp = c := by
            rw [strengthStep, if_pos ht]
            rw [euclidDistTo] at hd
            rw [if_neg hd]
          have hspec : strengthSpecEuclid ops (kp :: m') pos t =
              strengthSpecEuclid ops m' pos t := by
            simp [strengthSpecEuclid, ht, hd]
          rw [hstep, hspec]
      · have hstep : strengthStep ops pos t c kp = c := by
          rw [strengthStep, if_neg ht]
        have hspec : strengthSpecEuclid ops (kp :: m') pos t =
            strengthSpecEuclid ops m' pos t := by
          simp [strengthSpecEuclid, ht]
        rw [hstep, hspec]

/-- C3 amended: `getPheromoneStrength` returns the sum of
`intensity / (1 + d)` over exactly those entries of the matching type
whose PLAIN Euclidean distance `d` from the query position is below the
detection radius 30 (the function takes no world dimensions and applies no
toroidal wrap), and returns 0 when no entry qualifies. -/
theorem getPheromoneStrength_euclid_sum (ops : MathOps) (m : PherMap)
    (pos : Position) (t : PherType) :
    getPheromoneStrength ops m pos t = strengthSpecEuclid ops m pos t ∧
      ((∀ ph ∈ m.map Prod.snd,
          ¬(ph.type = t ∧ euclidDistTo ops pos ph < 30)) →
        getPheromoneStrength ops m pos t = 0) := by
  have h := foldl_strengthStep_eq ops pos t m 0
  have hmain : getPheromoneStrength ops m pos t =
      strengthSpecEuclid ops m pos t := by
    rw [getPheromoneStrength, h, zero_add]
  refine ⟨hmain, fun hnone => ?_⟩
  have hfil : (m.map Prod.snd).filter (fun ph =>
      decide (ph.type = t) && decide (euclidDistTo ops pos ph < 30)) = [] := by
    rw [List.filter_eq_nil_iff]
    intro ph hph
    simp only [Bool.and_eq_true, decide_eq_true_eq]
    exact fun hc => hnone ph hph hc
  rw [hmain, strengthSpecEuclid, hfil]
  rfl

/-- C3 witness: the amended theorem applied to a field whose only entry is
of the other type; no entry qualifies and the strength is 0. -/
theorem getPheromoneStrength_euclid_sum_witness :
    getPheromoneStrength testOps
      [((0, 0), ⟨⟨5, 5⟩, 40, PherType.toNest⟩)] ⟨0, 0⟩ PherType.toFood = 0 := by
  refine (getPheromoneStrength_euclid_sum testOps
    [((0, 0), ⟨⟨5, 5⟩, 40, PherType.toNest⟩)] ⟨0, 0⟩ PherType.toFood).2 ?_
  intro ph hph
  simp only [List.map_cons, List.map_nil, List.mem_singleton] at hph
  subst hph
  intro hc
  exact absurd hc.1 (by decide)

/-- C3 counterexample: with the world 100 × 100, an entry at (5, 5) and
the query at (95, 5), the toroidal distance is 10 (within the radius) so
the claim's toroidal sum is 11 / (1 + 10) = 1, but the plain Euclidean
distance is 90, so `getPheromoneStrength` returns 0 — the claim's
toroidal-distance reading is false. -/
theorem getPheromoneStrength_torus_counterexample :
    getPheromoneStrength testOps
        [((0, 0), ⟨⟨5, 5⟩, 11, PherType.toFood⟩)] ⟨95, 5⟩ PherType.toFood
        = 0 ∧
      strengthSpecTorus testOps
        [((0, 0), ⟨⟨5, 5⟩, 11, PherType.toFood⟩)] ⟨95, 5⟩ PherType.toFood
        100 100 = 1 ∧
      (0 : ℚ) ≠ 1 := by
  refine ⟨?_, ?_, by norm_num⟩
  · norm_num [getPheromoneStrength, strengthStep, testOps, ratSqrt, Nat.sqrt]
  · have hd : torusDistance testOps ⟨95, 5⟩ ⟨5, 5⟩ 100 100 = 10 := by
      norm_num [torusDistance, testOps, ratSqrt, Nat.sqrt]
    norm_num [strengthSpecTorus, hd]

-- C8: pheromone following falls back to the current direction when no
-- sensor reads enough strength; in particular on an empty field.

theorem followPheromone_weak_signal (ops : MathOps) (pos : Position)
    (phers : PherMap) (t : PherType) (dir : ℚ) (W H : ℚ)
    (params : PheromoneTrackingParams)
    (hmax :
      max (max
          (sensorStrengthAt ops pos phers t W H params
            (dir - params.sensorAngle))
          (sensorStrengthAt ops pos phers t W H params dir))
        (sensorStrengthAt ops pos phers t W H params
          (dir + params.sensorAngle)) < params.minimumStrength) :
    followPheromone ops pos phers t dir W H params = dir ∧
      ∀ (ops' : MathOps) (pos' : Position) (t' : PherType)
        (dir' W' H' : ℚ),
        followPheromone ops' pos' [] t' dir' W' H'
          (defaultTrackingParams ops') = dir' := by
  constructor
  · set s0 := sensorStrengthAt ops pos phers t W H params
      (dir - params.sensorAngle) with hs0
    set s1 := sensorStrengthAt ops pos phers t W H params dir with hs1
    set s2 := sensorStrengthAt ops pos phers t W H params
      (dir + params.sensorAngle) with hs2
    rw [followPheromone]
    by_cases h0 : s0 = max (max s0 s1) s2
    · rw [if_pos h0]
      have hgd : [s0, s1, s2].getD 0 (0 : ℚ) = s0 := rfl
      have hlt : s0 < params.minimumStrength := by
        rw [h0]; exact hmax
      rw [hgd, if_neg (not_lt.2 hlt.le)]
    · rw [if_neg h0]
      by_cases h1 : s1 = max (max s0 s1) s2
      · rw [if_pos h1]
        have hgd : [s0, s1, s2].getD 1 (0 : ℚ) = s1 := rfl
        have hlt : s1 < params.minimumStrength := by
          rw [h1]; exact hmax
        rw [hgd, if_neg (not_lt.2 hlt.le)]
      · rw [if_neg h1]
        have hgd : [s0, s1, s2].getD 2 (0 : ℚ) = s2 := rfl
        have hlt : s2 < params.minimumStrength :=
          lt_of_le_of_lt (le_max_right _ _) hmax
        rw [hgd, if_neg (not_lt.2 hlt.le)]
  · intro ops' pos' t' dir' W' H'
    have hz : ∀ a : ℚ, sensorStrengthAt ops' pos' [] t' W' H'
        (defaultTrackingParams ops') a = 0 := fun _ => rfl
    rw [followPheromone]
    simp only [hz, max_self]
    norm_num [defaultTrackingParams]

/-- C8 witness: the theorem applied to an empty field with the default
tracking parameters leaves a concrete direction unchanged. -/
theorem followPheromone_weak_signal_witness :
    followPheromone testOps ⟨0, 0⟩ [] PherType.toFood 7 100 100
      (defaultTrackingParams testOps) = 7 := by
  refine (followPheromone_weak_signal testOps ⟨0, 0⟩ [] PherType.toFood
    7 100 100 (defaultTrackingParams testOps) ?_).1
  have hz : ∀ a : ℚ, sensorStrengthAt testOps ⟨0, 0⟩ [] PherType.toFood
      100 100 (defaultTrackingParams testOps) a = 0 := fun _ => rfl
  simp only [hz, max_self]
  norm_num [defaultTrackingParams]

-- C9: collision avoidance is an exact identity when no other ant is
-- within the avoidance radius.

theorem foldl_fixed {α β : Type} (f : α → β → α) (l : List β) (i : α)
    (h : ∀ a ∈ l, ∀ acc, f acc a = acc) : l.foldl f i = i := by
  induction l generalizing i with
  | nil => rfl
  | cons hd t ih =>
      rw [List.foldl_cons, h hd (List.mem_cons_self _ _)]
      exact ih _ fun a ha acc => h a (List.mem_cons_of_mem _ ha) acc

/-- C9: when no other ant (the caller itself excluded by id) lies within
the avoidance radius of the input position, `avoidCollisions` returns
exactly the input direction and the input position. -/
theorem avoidCollisions_no_neighbor_identity (ops : MathOps)
    (position : Position) (direction : ℚ) (otherAnts : List Ant)
    (currentAntId : String) (W H : ℚ) (params : CollisionParams)
    (h : ∀ a ∈ otherAnts, a.id ≠ currentAntId →
      ¬(torusDistance ops position a.position W H < params.avoidanceRadius)) :
    avoidCollisions ops position direction otherAnts currentAntId W H params
      = { direction := direction, position := position } := by
  have hfold : otherAnts.foldl
      (avoidStep ops position currentAntId W H params) ((0, 0), 0)
      = ((0, 0), 0) := by
    refine foldl_fixed _ _ _ fun a ha acc => ?_
    rw [avoidStep]
    by_cases hid : a.id = currentAntId
    · rw [if_pos hid]
    · rw [if_neg hid, if_neg]
      rintro ⟨hlt, _⟩
      exact h a ha hid hlt
  rw [avoidCollisions, hfold]
  rfl

/-- C9 witness: the identity applied with one far-away ant and the caller
itself in the neighbor list. -/
theorem avoidCollisions_no_neighbor_identity_witness :
    avoidCollisions testOps ⟨0, 0⟩ 7
      [⟨("a1" : String), ⟨0, 0⟩, 0, false, none, none⟩,
        ⟨("a2" : String), ⟨50, 0⟩, 0, false, none, none⟩]
      ("a1" : String) 100 100
      { avoidanceRadius := 8, avoidanceStrength := 1/2 }
      = { direction := 7, position := ⟨0, 0⟩ } := by
  refine avoidCollisions_no_neighbor_identity testOps ⟨0, 0⟩ 7 _ _ 100 100 _
    ?_
  intro a ha hid
  rcases List.mem_cons.1 ha with h1 | h1
  · subst h1
    exact absurd rfl hid
  · rcases List.mem_cons.1 h1 with h2 | h2
    · subst h2
      norm_num [torusDistance, testOps, ratSqrt, Nat.sqrt]
    · simp at h2

-- C6: food collection flips the ant to carrying and decrements the food
-- by exactly one, removing it exactly when the decrement is not positive.

theorem executeAntBehavior_to_collectFood (ops : MathOps)
    (context : AntBehaviorContext) (food : Food)
    (hf : context.ant.hasFood = false)
    (hdet : detectNearbyFood ops context = some food)
    (hclose : torusDistance ops context.ant.position food.position
      context.worldWidth context.worldHeight < FOOD_COLLECTION_RANGE) :
    executeAntBehavior ops context = collectFood food := by
  rw [executeAntBehavior, if_neg (by rw [hf]; exact Bool.false_ne_true)]
  rw [executeForagingBehavior, hdet]
  simp only [handleFoodInteraction]
  rw [if_pos hclose]

/-- C6: a foraging ant whose distance to the detected food is below the
collection threshold produces an update with `hasFood = true`,
`targetFood` the food's id and `foodAmount` snapshotting the food's
amount; the result decrements that food's amount by exactly 1, and
schedules removal exactly when the decremented amount is 0 or below
(otherwise the amount update, never both). -/
theorem executeAntBehavior_collect_spec (ops : MathOps)
    (context : AntBehaviorContext) (food : Food)
    (hf : context.ant.hasFood = false)
    (hdet : detectNearbyFood ops context = some food)
    (hclose : torusDistance ops context.ant.position food.position
      context.worldWidth context.worldHeight < FOOD_COLLECTION_RANGE) :
    (executeAntBehavior ops context).antUpdate = some
        { hasFood := some true
          targetFood := some (some food.id)
          foodAmount := some (some food.amount) } ∧
      (executeAntBehavior ops context).pheromoneUpdates = [] ∧
      (0 < food.amount - 1 →
        (executeAntBehavior ops context).foodUpdate =
            some { id := food.id, amount := food.amount - 1 } ∧
          (executeAntBehavior ops context).removeFood = none) ∧
      (food.amount - 1 ≤ 0 →
        (executeAntBehavior ops context).removeFood = some food.id ∧
          (executeAntBehavior ops context).foodUpdate = none) := by
  rw [executeAntBehavior_to_collectFood ops context food hf hdet hclose]
  refine ⟨rfl, rfl, fun hpos => ⟨?_, ?_⟩, fun hnp => ⟨?_, ?_⟩⟩
  · rw [collectFood]
    simp only [if_pos hpos]
  · rw [collectFood]
    simp only [if_neg (not_le.2 hpos)]
  · rw [collectFood]
    simp only [if_pos hnp]
  · rw [collectFood]
    simp only [if_neg (not_lt.2 hnp)]

/-- C6 witness: an ant at (0, 0) and a food of amount 10 at (5, 0) — the
collection yields amount 9 without removal; a food of amount 1 at the same
spot is removed. -/
theorem executeAntBehavior_collect_spec_witness :
    (executeAntBehavior testOps
          { ant := ⟨("a1" : String), ⟨0, 0⟩, 0, false, none, none⟩
            foods := [⟨("f1" : String), ⟨5, 0⟩, 10⟩]
            pheromones := []
            nest := ⟨60, 0⟩
            worldWidth := 100
            worldHeight := 100
            pheromoneDepositAmount := 2
            pheromoneTrackingStrength := 7/10
            ants := [] }).foodUpdate =
        some { id := ("f1" : String), amount := 9 } ∧
      (executeAntBehavior testOps
          { ant := ⟨("a1" : String), ⟨0, 0⟩, 0, false, none, none⟩
            foods := [⟨("f2" : String), ⟨5, 0⟩, 1⟩]
            pheromones := []
            nest := ⟨60, 0⟩
            worldWidth := 100
            worldHeight := 100
            pheromoneDepositAmount := 2
            pheromoneTrackingStrength := 7/10
            ants := [] }).removeFood = some ("f2" : String) := by
  have hdist : torusDistance testOps ⟨0, 0⟩ ⟨5, 0⟩ 100 100 = 5 := by
    norm_num [torusDistance, testOps, ratSqrt, Nat.sqrt]
  constructor
  · have h := executeAntBehavior_collect_spec testOps
      { ant := ⟨("a1" : String), ⟨0, 0⟩, 0, false, none, none⟩
        foods := [⟨("f1" : String), ⟨5, 0⟩, 10⟩]
        pheromones := []
        nest := ⟨60, 0⟩
        worldWidth := 100
        worldHeight := 100
        pheromoneDepositAmount := 2
        pheromoneTrackingStrength := 7/10
        ants := [] }
      ⟨("f1" : String), ⟨5, 0⟩, 10⟩ rfl
      (by
        rw [detectNearbyFood]
        rw [List.find?_cons_of_pos]
        simp only [hdist, FOOD_DETECTION_RANGE]
        norm_num)
      (by
        simp only [hdist, FOOD_COLLECTION_RANGE]
        norm_num)
    have h9 : (10 : ℚ) - 1 = 9 := by norm_num
    obtain ⟨hfu, _⟩ := h.2.2.1 (by norm_num)
    rw [hfu, h9]
  · have h := executeAntBehavior_collect_spec testOps
      { ant := ⟨("a1" : String), ⟨0, 0⟩, 0, false, none, none⟩
        foods := [⟨("f2" : String), ⟨5, 0⟩, 1⟩]
        pheromones := []
        nest := ⟨60, 0⟩
        worldWidth := 100
        worldHeight := 100
        pheromoneDepositAmount := 2
        pheromoneTrackingStrength := 7/10
        ants := [] }
      ⟨("f2" : String), ⟨5, 0⟩, 1⟩ rfl
      (by
        rw [detectNearbyFood]
        rw [List.find?_cons_of_pos]
        simp only [hdist, FOOD_DETECTION_RANGE]
        norm_num)
      (by
        simp only [hdist, FOOD_COLLECTION_RANGE]
        norm_num)
    obtain ⟨hrm, _⟩ := h.2.2.2 (by norm_num)
    exact hrm

-- C7: arrival at the nest clears the carrying state and moves nothing.

/-- C7: a returning ant within the nest arrival threshold gets exactly the
clearing update (no position, no direction, no pheromone deposit), and the
committed next snapshot carries the same ant with `hasFood`, `targetFood`
and `foodAmount` cleared and its position and direction untouched. -/
theorem executeReturningBehavior_arrival_spec (ops : MathOps)
    (config : SimulationConfig) (foods : List Food) (phers : PherMap)
    (nest : Position) (ant : Ant) (hf : ant.hasFood = true)
    (hd : torusDistance ops ant.position nest config.worldWidth
      config.worldHeight < NEST_ARRIVAL_RANGE) :
    executeAntBehavior ops
        (behaviorContext config ⟨[ant], foods, phers, nest⟩ ant) =
      { antUpdate := some
          { hasFood := some false
            targetFood := some none
            foodAmount := some none }
        pheromoneUpdates := [] } ∧
    (executeSimulationStep ops config ⟨[ant], foods, phers, nest⟩).ants =
      some [{ ant with
        hasFood := false
        targetFood := none
        foodAmount := none }] := by
  have hbehav : executeAntBehavior ops
      (behaviorContext config ⟨[ant], foods, phers, nest⟩ ant) =
      { antUpdate := some
          { hasFood := some false
            targetFood := some none
            foodAmount := some none }
        pheromoneUpdates := [] } := by
    simp only [executeAntBehavior, behaviorContext, hf, if_true]
    simp only [executeReturningBehavior]
    rw [if_pos hd]
  refine ⟨hbehav, ?_⟩
  simp only [executeSimulationStep, processAllAnts, List.map_cons,
    List.map_nil]
  rw [hbehav]
  simp only [applyBehaviorResults, List.foldl_cons, List.foldl_nil,
    assocSet, assocGet, mergeAnt]
  norm_num

/-- C7 witness: a carrying ant 3 units from the nest is committed with its
carrying state cleared and its position and facing untouched. -/
theorem executeReturningBehavior_arrival_spec_witness :
    (executeSimulationStep testOps ⟨800, 600, 2, 7/10⟩
        ⟨[⟨("a1" : String), ⟨27, 0⟩, 0, true, none, none⟩], [], [],
          ⟨30, 0⟩⟩).ants =
      some [⟨("a1" : String), ⟨27, 0⟩, 0, false, none, none⟩] := by
  have h := executeReturningBehavior_arrival_spec testOps ⟨800, 600, 2, 7/10⟩
    [] [] ⟨30, 0⟩ ⟨("a1" : String), ⟨27, 0⟩, 0, true, none, none⟩ rfl
    (by norm_num [torusDistance, testOps, ratSqrt, Nat.sqrt,
      NEST_ARRIVAL_RANGE])
  exact h.2

-- C10: the pickup tick carries no position and no direction update, so
-- the committed snapshot keeps the ant's position and facing.

/-- C10: on a pickup tick (foraging ant, detected food below the
collection threshold) the behavior result's ant update contains no
position and no direction, and after the orchestrator merges the updates
the committed ant keeps its old position and facing, only its carrying
fields changing. -/
theorem collect_tick_no_movement (ops : MathOps) (config : SimulationConfig)
    (foods : List Food) (phers : PherMap) (nest : Position) (ant : Ant)
    (food : Food) (hf : ant.hasFood = false)
    (hdet : detectNearbyFood ops
      (behaviorContext config ⟨[ant], foods, phers, nest⟩ ant) = some food)
    (hclose : torusDistance ops ant.position food.position
      config.worldWidth config.worldHeight < FOOD_COLLECTION_RANGE) :
    (∃ u : AntUpdate,
        (executeAntBehavior ops
            (behaviorContext config ⟨[ant], foods, phers, nest⟩ ant)).antUpdate
          = some u ∧ u.position = none ∧ u.direction = none) ∧
      (executeSimulationStep ops config ⟨[ant], foods, phers, nest⟩).ants =
        some [{ ant with
          hasFood := true
          targetFood := some food.id
          foodAmount := some food.amount }] := by
  have hbehav : executeAntBehavior ops
      (behaviorContext config ⟨[ant], foods, phers, nest⟩ ant) =
      collectFood food :=
    executeAntBehavior_to_collectFood ops _ food hf hdet hclose
  constructor
  · exact ⟨_, by rw [hbehav]; rfl, rfl, rfl⟩
  · simp only [executeSimulationStep, processAllAnts, List.map_cons,
      List.map_nil]
    rw [hbehav]
    simp only [applyBehaviorResults, List.foldl_cons, List.foldl_nil,
      assocSet, assocGet, mergeAnt, collectFood]
    norm_num

-- C1: the orchestrator only commits the merged pheromone map when the
-- number of occupied cells changed, so a deposit that merely intensifies
-- an existing cell is dropped from the committed snapshot.

/-- C1: on the failing input, the tick's lone behavior result deposits
intensity 52 into the already-occupied cell (0, 0); the update emitted by
`executeSimulationStep` carries no pheromone component because the merged
map's entry count equals the old one, so the committed snapshot keeps the
old intensity 50 — the collected deposit is lost, contradicting the
claim's "no collected deposit is lost". -/
theorem executeSimulationStep_drops_deposit :
    (executeAntBehavior testOps
        (behaviorContext c1Config c1State c1Ant)).pheromoneUpdates =
        [((0, 0), ⟨⟨5, 5⟩, 52, PherType.toFood⟩)] ∧
      (executeSimulationStep testOps c1Config c1State).pheromones = none ∧
      (commitUpdate c1State
          (executeSimulationStep testOps c1Config c1State)).pheromones =
        [((0, 0), ⟨⟨5, 5⟩, 50, PherType.toFood⟩)] := by
  have hdist : torusDistance testOps ⟨0, 0⟩ ⟨30, 0⟩ 800 600 = 30 := by
    norm_num [torusDistance, testOps, ratSqrt, Nat.sqrt]
  have hbehav : executeAntBehavior testOps
      (behaviorContext c1Config c1State c1Ant) =
      { antUpdate := some
          (moveTowardsNest testOps (behaviorContext c1Config c1State c1Ant))
        pheromoneUpdates := [((0, 0), ⟨⟨5, 5⟩, 52, PherType.toFood⟩)]
        foodUpdate := none
        removeFood := none } := by
    simp only [executeAntBehavior, executeReturningBehavior,
      behaviorContext, c1Config, c1State, c1Ant]
    rw [hdist]
    norm_num [NEST_ARRIVAL_RANGE, calculateFoodQualityMultiplier,
      depositPheromone, createPheromoneKey, assocGet, assocSet]
  have hpher :
      (executeSimulationStep testOps c1Config c1State).pheromones = none := by
    simp only [executeSimulationStep, processAllAnts,
      show c1State.ants = [c1Ant] from rfl, List.map_cons, List.map_nil]
    rw [hbehav]
    simp only [applyBehaviorResults, List.foldl_cons, List.foldl_nil,
      show c1State.pheromones = [((0, 0), ⟨⟨5, 5⟩, 50, PherType.toFood⟩)]
        from rfl, assocSet]
    norm_num
  refine ⟨?_, hpher, ?_⟩
  · rw [hbehav]
  · simp only [commitUpdate, hpher, Option.getD_none]
    rfl

/-- C10 witness: a foraging ant at (0, 0) facing 3 picks up the food 5
units away; the committed snapshot keeps its position and facing, only the
carrying fields changing. -/
theorem collect_tick_no_movement_witness :
    (executeSimulationStep testOps ⟨100, 100, 2, 7/10⟩
        ⟨[⟨("a1" : String), ⟨0, 0⟩, 3, false, none, none⟩],
          [⟨("f1" : String), ⟨5, 0⟩, 10⟩], [], ⟨60, 0⟩⟩).ants =
      some [⟨("a1" : String), ⟨0, 0⟩, 3, true, some ("f1" : String),
        some 10⟩] := by
  have hdist : torusDistance testOps ⟨0, 0⟩ ⟨5, 0⟩ 100 100 = 5 := by
    norm_num [torusDistance, testOps, ratSqrt, Nat.sqrt]
  have h := collect_tick_no_movement testOps ⟨100, 100, 2, 7/10⟩
    [⟨("f1" : String), ⟨5, 0⟩, 10⟩] [] ⟨60, 0⟩
    ⟨("a1" : String), ⟨0, 0⟩, 3, false, none, none⟩
    ⟨("f1" : String), ⟨5, 0⟩, 10⟩ rfl
    (by
      rw [detectNearbyFood]
      simp only [behaviorContext]
      rw [List.find?_cons_of_pos]
      simp only [hdist, FOOD_DETECTION_RANGE]
      norm_num)
    (by
      simp only [hdist, FOOD_COLLECTION_RANGE]
      norm_num)
  exact h.2
